import Mathlib

/-!
Verification of the emissions aggregation and geo-assignment pipeline of the
eco-spain-mapper repository, as a shallow embedding in Lean 4.

JavaScript numbers are modelled as a sum type over exact rationals plus the
three non-finite values (NaN, +Infinity, -Infinity).  Using exact rationals is
faithful for every computation the claims exercise: the inputs are small
decimal literals and the operations are sums, comparisons and one division,
all of which the source performs on IEEE doubles that represent these decimal
values and for which the claims compare against exact decimal cutoffs.
-/

/-- Model of a JavaScript number: a finite rational, NaN, or a signed
infinity. -/
inductive JsNum where
  | fin (q : ℚ)
  | nan
  | pinf
  | ninf
deriving DecidableEq, Repr

namespace JsNum

/-- The JavaScript isFinite test on a number. -/
def isFin : JsNum → Bool
  | fin _ => true
  | _ => false

/-- JavaScript addition on numbers, including the non-finite cases:
NaN absorbs, Infinity + -Infinity = NaN, Infinity dominates finite values. -/
def add : JsNum → JsNum → JsNum
  | fin a, fin b => fin (a + b)
  | nan, _ => nan
  | _, nan => nan
  | pinf, ninf => nan
  | ninf, pinf => nan
  | pinf, _ => pinf
  | _, pinf => pinf
  | ninf, _ => ninf
  | _, ninf => ninf

/-- JavaScript strict greater-than against a finite cutoff: NaN compares
false, +Infinity is greater, -Infinity is not. -/
def gtC (n : JsNum) (c : ℚ) : Bool :=
  match n with
  | fin q => decide (c < q)
  | nan => false
  | pinf => true
  | ninf => false

/-- JavaScript division of two finite numbers: 0/0 is NaN and x/0 is a signed
infinity, otherwise the exact quotient. -/
def divQ (a b : ℚ) : JsNum :=
  if b = 0 then
    if a = 0 then nan else if 0 < a then pinf else ninf
  else fin (a / b)

/-- Math.min against a finite constant: NaN propagates, per JavaScript. -/
def minC (c : ℚ) : JsNum → JsNum
  | fin q => fin (min c q)
  | nan => nan
  | pinf => fin c
  | ninf => ninf

/-- Math.max against a finite constant: NaN propagates, per JavaScript. -/
def maxC (c : ℚ) : JsNum → JsNum
  | fin q => fin (max c q)
  | nan => nan
  | pinf => pinf
  | ninf => fin c

theorem add_comm_js (a b : JsNum) : add a b = add b a := by
  cases a <;> cases b <;> simp [add] <;> ring

theorem add_right_comm_js (a b c : JsNum) :
    add (add a b) c = add (add a c) b := by
  cases a <;> cases b <;> cases c <;> simp [add] <;> ring

end JsNum

/-- Model of a JavaScript runtime value as stored on a parsed CSV record:
a number, a string, or undefined (absent property). -/
inductive Value where
  | jsn (n : JsNum)
  | str (s : String)
  | undef
deriving DecidableEq, Repr

namespace Value

/-- The JavaScript `typeof v === 'number'` test. -/
def isNumberType : Value → Bool
  | jsn _ => true
  | _ => false

/-- JavaScript truthiness of a value: 0, NaN and the empty string are falsy. -/
def truthy : Value → Bool
  | jsn (.fin q) => decide (q ≠ 0)
  | jsn .nan => false
  | jsn _ => true
  | str s => decide (s ≠ "")
  | undef => false

end Value

-- ---------------------------------------------------------------------------
-- src/utils/security.ts
-- ---------------------------------------------------------------------------

/-- MAX_FILE_SIZE from security.ts: 10 MB. -/
def MAX_FILE_SIZE : ℕ := 10 * 1024 * 1024

/-- MAX_CSV_ROWS from security.ts. -/
def MAX_CSV_ROWS : ℕ := 50000

/-- MAX_CSV_COLUMNS from security.ts. -/
def MAX_CSV_COLUMNS : ℕ := 20

/-- validateFileSize from security.ts, on the byte size of the file. -/
def validateFileSize (size : ℕ) : Bool :=
  size ≤ MAX_FILE_SIZE

/-- validateCoordinates from security.ts: the Spain bounding-box check
lat ∈ [27.6, 43.8], lng ∈ [-18.2, 4.3]. -/
def validateCoordinates (lat lng : ℚ) : Bool :=
  decide ((27.6 : ℚ) ≤ lat) && decide (lat ≤ (43.8 : ℚ)) &&
    decide ((-18.2 : ℚ) ≤ lng) && decide (lng ≤ (4.3 : ℚ))

/-- sanitizeNumber from security.ts, applied to the result of the Number()
coercion (the coerced JavaScript number is the argument): non-finite values
map to 0, finite values are clamped to [-1e12, 1e12]. -/
def sanitizeNumber : JsNum → ℚ
  | .fin q => max (-1000000000000) (min 1000000000000 q)
  | _ => 0

theorem sanitizeNumber_nonfin (n : JsNum) (h : n.isFin = false) :
    sanitizeNumber n = 0 := by
  cases n <;> simp [JsNum.isFin] at h ⊢ <;> rfl

/-- Claim C7: for every input value, the numeric coercion in sanitizeNumber
returns 0 when the coerced number is not finite (NaN or infinite), and
otherwise returns the number clamped into [-1e12, 1e12]; the result is always
finite and within those bounds. -/
theorem claimC7_sanitizeNumber (n : JsNum) :
    (n.isFin = false → sanitizeNumber n = 0) ∧
    (∀ q : ℚ, n = .fin q → -1000000000000 ≤ q → q ≤ 1000000000000 →
      sanitizeNumber n = q) ∧
    (∀ q : ℚ, n = .fin q → 1000000000000 < q → sanitizeNumber n = 1000000000000) ∧
    (∀ q : ℚ, n = .fin q → q < -1000000000000 → sanitizeNumber n = -1000000000000) ∧
    (-1000000000000 ≤ sanitizeNumber n ∧ sanitizeNumber n ≤ 1000000000000) := by
  refine ⟨sanitizeNumber_nonfin n, ?_, ?_, ?_, ?_⟩
  · rintro q rfl h1 h2
    simp [sanitizeNumber]
    rw [min_eq_right h2, max_eq_right h1]
  · rintro q rfl h
    simp [sanitizeNumber]
    rw [min_eq_left h.le, max_eq_right]
    norm_num
  · rintro q rfl h
    show max (-1000000000000) (min 1000000000000 q) = -1000000000000
    rw [max_eq_left]
    exact le_trans (min_le_right _ _) h.le
  · cases n with
    | fin q => exact ⟨le_max_left _ _, max_le (by norm_num) (min_le_left _ _)⟩
    | nan => exact ⟨by norm_num [sanitizeNumber], by norm_num [sanitizeNumber]⟩
    | pinf => exact ⟨by norm_num [sanitizeNumber], by norm_num [sanitizeNumber]⟩
    | ninf => exact ⟨by norm_num [sanitizeNumber], by norm_num [sanitizeNumber]⟩

/-- Witness for claim C7 at concrete inputs: 5 is returned unchanged, NaN
maps to 0, and 2e12 is clamped to 1e12. -/
theorem claimC7_sanitizeNumber_witness :
    sanitizeNumber (.fin 5) = 5 ∧ sanitizeNumber .nan = 0 ∧
      sanitizeNumber (.fin 2000000000000) = 1000000000000 :=
  ⟨(claimC7_sanitizeNumber (.fin 5)).2.1 5 rfl (by norm_num) (by norm_num),
   (claimC7_sanitizeNumber .nan).1 rfl,
   (claimC7_sanitizeNumber (.fin 2000000000000)).2.2.1 2000000000000 rfl
     (by norm_num)⟩

-- ---------------------------------------------------------------------------
-- Offline batch pipeline: fixed anchor table and nearest-anchor resolution
-- ---------------------------------------------------------------------------

/-- A Geographic Anchor from the offline script: a region name with its
centroid coordinates. -/
structure RegionAnchor where
  name : String
  lat : ℚ
  lng : ℚ
deriving DecidableEq, Repr

/-- The fixed 17-entry anchor table `regions` of the offline script, in
declaration order. -/
def regions : List RegionAnchor :=
  [⟨"Andalucía", 37.7749, -4.7324⟩,
   ⟨"Aragón", 41.5868, -0.8296⟩,
   ⟨"Asturias", 43.3619, -5.8494⟩,
   ⟨"Baleares", 39.6953, 3.0176⟩,
   ⟨"Canarias", 28.2916, -16.6291⟩,
   ⟨"Cantabria", 43.1828, -3.9878⟩,
   ⟨"Castilla-La Mancha", 39.5663, -2.9908⟩,
   ⟨"Castilla y León", 41.6523, -4.7245⟩,
   ⟨"Cataluña", 41.8019, 1.8734⟩,
   ⟨"Comunidad Valenciana", 39.4840, -0.7532⟩,
   ⟨"Extremadura", 39.1622, -6.3432⟩,
   ⟨"Galicia", 42.5751, -8.1339⟩,
   ⟨"Madrid", 40.4165, -3.7026⟩,
   ⟨"Murcia", 37.9922, -1.1307⟩,
   ⟨"Navarra", 42.6954, -1.6761⟩,
   ⟨"País Vasco", 43.2630, -2.9340⟩,
   ⟨"La Rioja", 42.2871, -2.5396⟩]

/-- The squared planar degree-space distance used by the `distance` function
of the offline script.  The source applies Math.sqrt to this quantity; since
the square root is strictly monotone on nonnegative reals, every comparison
performed by closestRegion is unchanged when the square root is dropped, so
the embedding works with the squared distance. -/
def distanceSq (alat alng blat blng : ℚ) : ℚ :=
  (alat - blat) * (alat - blat) + (alng - blng) * (alng - blng)

/-- The scanning loop of closestRegion: keeps the current best anchor and
replaces it only on a strictly smaller distance. -/
def closestAux (lat lon : ℚ) : RegionAnchor → List RegionAnchor → RegionAnchor
  | best, [] => best
  | best, r :: rest =>
      if distanceSq lat lon r.lat r.lng < distanceSq lat lon best.lat best.lng
      then closestAux lat lon r rest
      else closestAux lat lon best rest

/-- closestRegion from the offline script: linear scan over the anchor table,
starting from the first anchor, updating on strictly smaller distance. -/
def closestRegion (lat lon : ℚ) : String :=
  match regions with
  | [] => ""
  | b :: rs => (closestAux lat lon b rs).name

/-- Running minimum of the anchor distances, seeded with x. -/
def minDistFrom (lat lon : ℚ) (x : ℚ) : List RegionAnchor → ℚ
  | [] => x
  | r :: rs => minDistFrom lat lon (min x (distanceSq lat lon r.lat r.lng)) rs

/-- Modelled from the spec wording of the resolver contract: the name of the
first anchor, in declaration order, whose distance attains the minimum over
the whole anchor table.  Used as the specification side of claim C2. -/
def specNearestName (lat lon : ℚ) : String :=
  match regions with
  | [] => ""
  | b :: rs =>
      ((b :: rs).find? (fun r =>
          decide (distanceSq lat lon r.lat r.lng =
            minDistFrom lat lon (distanceSq lat lon b.lat b.lng) rs))).elim
        "" RegionAnchor.name

theorem minDistFrom_le (lat lon : ℚ) :
    ∀ (l : List RegionAnchor) (x : ℚ), minDistFrom lat lon x l ≤ x := by
  intro l
  induction l with
  | nil => intro x; exact le_refl x
  | cons r rs ih =>
      intro x
      exact le_trans (ih (min x (distanceSq lat lon r.lat r.lng)))
        (min_le_left _ _)

theorem closestAux_eq_find (lat lon : ℚ) :
    ∀ (rest : List RegionAnchor) (best : RegionAnchor),
      (best :: rest).find? (fun r =>
          decide (distanceSq lat lon r.lat r.lng =
            minDistFrom lat lon (distanceSq lat lon best.lat best.lng) rest))
        = some (closestAux lat lon best rest) := by
  intro rest
  induction rest with
  | nil =>
      intro best
      simp [closestAux, minDistFrom, List.find?]
  | cons r rs ih =>
      intro best
      by_cases h : distanceSq lat lon r.lat r.lng <
          distanceSq lat lon best.lat best.lng
      · have hm : minDistFrom lat lon (distanceSq lat lon best.lat best.lng)
            (r :: rs) =
            minDistFrom lat lon (distanceSq lat lon r.lat r.lng) rs := by
          show minDistFrom lat lon
              (min (distanceSq lat lon best.lat best.lng)
                (distanceSq lat lon r.lat r.lng)) rs = _
          rw [min_eq_right h.le]
        have hb : ¬ (distanceSq lat lon best.lat best.lng =
            minDistFrom lat lon (distanceSq lat lon best.lat best.lng)
              (r :: rs)) := by
          rw [hm]
          intro he
          have := minDistFrom_le lat lon rs
            (distanceSq lat lon r.lat r.lng)
          rw [← he] at this
          exact absurd (lt_of_le_of_lt this h) (lt_irrefl _)
        rw [List.find?_cons_of_neg _ (by simpa using hb)]
        rw [hm]
        have := ih r
        rw [this]
        show _ = some (closestAux lat lon best (r :: rs))
        simp [closestAux, h]
      · have hmin : min (distanceSq lat lon best.lat best.lng)
            (distanceSq lat lon r.lat r.lng) =
            distanceSq lat lon best.lat best.lng :=
          min_eq_left (le_of_not_lt h)
        have hm : minDistFrom lat lon (distanceSq lat lon best.lat best.lng)
            (r :: rs) =
            minDistFrom lat lon (distanceSq lat lon best.lat best.lng) rs := by
          show minDistFrom lat lon
              (min (distanceSq lat lon best.lat best.lng)
                (distanceSq lat lon r.lat r.lng)) rs = _
          rw [hmin]
        have hres : closestAux lat lon best (r :: rs) =
            closestAux lat lon best rs := by
          simp [closestAux, h]
        by_cases pb : distanceSq lat lon best.lat best.lng =
            minDistFrom lat lon (distanceSq lat lon best.lat best.lng) (r :: rs)
        · rw [List.find?_cons_of_pos _ (by simpa using pb)]
          have hb2 : distanceSq lat lon best.lat best.lng =
              minDistFrom lat lon (distanceSq lat lon best.lat best.lng) rs := by
            rw [← hm]; exact pb
          have := ih best
          rw [List.find?_cons_of_pos _ (by simpa using hb2)] at this
          rw [hres, ← this]
        · rw [List.find?_cons_of_neg _ (by simpa using pb)]
          have hr : ¬ (distanceSq lat lon r.lat r.lng =
              minDistFrom lat lon (distanceSq lat lon best.lat best.lng)
                (r :: rs)) := by
            intro he
            apply pb
            have hle : minDistFrom lat lon
                (distanceSq lat lon best.lat best.lng) (r :: rs) ≤
                distanceSq lat lon best.lat best.lng := by
              rw [hm]
              exact minDistFrom_le lat lon rs _
            have hge : distanceSq lat lon best.lat best.lng ≤
                distanceSq lat lon r.lat r.lng := le_of_not_lt h
            exact le_antisymm (he ▸ hge) hle
          rw [List.find?_cons_of_neg _ (by simpa using hr)]
          have := ih best
          rw [List.find?_cons_of_neg _ (by simpa [hm] using pb)] at this
          rw [hres, ← this, hm]

theorem closestAux_eq_find2 (lat lon bl bg : ℚ) (nm : String)
    (rest : List RegionAnchor) :
    (List.find? (fun r =>
        decide (distanceSq lat lon r.lat r.lng =
          minDistFrom lat lon (distanceSq lat lon bl bg) rest))
      (⟨nm, bl, bg⟩ :: rest)) =
      some (closestAux lat lon ⟨nm, bl, bg⟩ rest) :=
  closestAux_eq_find lat lon rest ⟨nm, bl, bg⟩

set_option maxHeartbeats 2000000

/-- Claim C2: for every coordinate exactly equal to the centroid of some
anchor, closestRegion returns that anchor; and for every coordinate,
closestRegion returns the first anchor in declaration order whose distance
attains the minimum, which in particular settles every tie in favour of the
first-declared anchor. -/
theorem claimC2_nearest_anchor :
    (∀ a ∈ regions, closestRegion a.lat a.lng = a.name) ∧
    (∀ lat lon : ℚ, closestRegion lat lon = specNearestName lat lon) := by
  constructor
  · intro a ha
    fin_cases ha <;> norm_num [closestRegion, regions, closestAux, distanceSq]
  · intro lat lon
    simp only [closestRegion, specNearestName, regions]
    rw [closestAux_eq_find2]
    rfl

/-- Witness for claim C2: the centroid of Madrid resolves to Madrid. -/
theorem claimC2_nearest_anchor_witness :
    closestRegion 40.4165 (-3.7026) = "Madrid" :=
  claimC2_nearest_anchor.1 ⟨"Madrid", 40.4165, -3.7026⟩ (by
    simp [regions])

-- ---------------------------------------------------------------------------
-- String utilities modelling the JavaScript string operations used by the
-- pipeline (split, trim, global quote removal, numeric parsing)
-- ---------------------------------------------------------------------------

/-- Whitespace for the JavaScript trim operation (the characters occurring in
the CSV inputs). -/
def isWsChar (c : Char) : Bool :=
  c = ' ' || c = '\t' || c = '\n' || c = '\r'

/-- JavaScript String.prototype.trim on a character list. -/
def trimChars (l : List Char) : List Char :=
  ((l.dropWhile isWsChar).reverse.dropWhile isWsChar).reverse

/-- JavaScript String.prototype.split on a single separator character:
always returns at least one (possibly empty) part. -/
def splitCh (sep : Char) : List Char → List (List Char)
  | [] => [[]]
  | c :: cs =>
      match splitCh sep cs with
      | [] => if c = sep then [[], []] else [[c]]
      | h :: t => if c = sep then [] :: h :: t else (c :: h) :: t

/-- Value of a digit character list read in base 10 (callers ensure the
characters are digits). -/
def digitsVal (l : List Char) : ℕ :=
  l.foldl (fun n c => n * 10 + (c.toNat - 48)) 0

/-- Model of the JavaScript Number() coercion on a string, for the fragment
of inputs the pipeline meets: optional sign, decimal digits with at most one
decimal point, the literal Infinity, and the empty string (which coerces
to 0).  Exponent, hexadecimal and other exotic forms are outside the
fragment and map to NaN. -/
def strToNumJs (s : String) : JsNum :=
  match trimChars s.data with
  | [] => .fin 0
  | l =>
      let sgn : ℚ := if l.head? = some '-' then -1 else 1
      let l2 := if l.head? = some '-' || l.head? = some '+' then l.tail else l
      if l2 = "Infinity".data then (if sgn = 1 then .pinf else .ninf)
      else
        match splitCh '.' l2 with
        | [ip] =>
            if ip ≠ [] && ip.all Char.isDigit then .fin (sgn * digitsVal ip)
            else .nan
        | [ip, fp] =>
            if (ip ≠ [] || fp ≠ []) && ip.all Char.isDigit &&
                fp.all Char.isDigit then
              .fin (sgn * (digitsVal ip + digitsVal fp / 10 ^ fp.length))
            else .nan
        | _ => .nan

/-- Model of the JavaScript parseFloat on a string: leading whitespace is
skipped and the longest numeric prefix (optional sign, digits, at most one
decimal point) is parsed; no numeric prefix gives NaN.  The literal Infinity
is outside the modelled fragment (no pipeline input contains it). -/
def parseFloatJs (s : String) : JsNum :=
  let l := s.data.dropWhile isWsChar
  let sgn : ℚ := if l.head? = some '-' then -1 else 1
  let l2 := if l.head? = some '-' || l.head? = some '+' then l.tail else l
  let ip := l2.takeWhile Char.isDigit
  let r1 := l2.drop ip.length
  let fp := match r1 with
    | '.' :: t => t.takeWhile Char.isDigit
    | _ => []
  if ip = [] && fp = [] then .nan
  else .fin (sgn * (digitsVal ip + digitsVal fp / 10 ^ fp.length))

/-- parseFloat applied to a possibly-absent record field: an absent property
is undefined, which parseFloat turns into NaN. -/
def parseFloatOpt : Option String → JsNum
  | none => .nan
  | some s => parseFloatJs s

/-- Model of `new Date(s).getFullYear()` for the fragment of inputs the
offline pipeline meets: an ISO-like string starting with a four-digit year
(either the bare year or followed by a dash) yields that year, anything else
(including an absent field, where the Date is invalid) yields NaN, encoded
as none. -/
def jsDateFullYear : Option String → Option Int
  | none => none
  | some s =>
      match s.data with
      | a :: b :: c :: d :: rest =>
          if a.isDigit && b.isDigit && c.isDigit && d.isDigit &&
              (rest = [] || rest.head? = some '-') then
            some (digitsVal [a, b, c, d])
          else none
      | _ => none

/-- Template-literal interpolation of a possibly-undefined string field:
undefined prints as the string undefined. -/
def tmplStr : Option String → String
  | none => "undefined"
  | some s => s

/-- Template-literal interpolation of the year number: NaN prints as NaN. -/
def yearKeyStr : Option Int → String
  | none => "NaN"
  | some n => toString n

-- ---------------------------------------------------------------------------
-- Association-list model of a JavaScript Map (insertion order preserved)
-- ---------------------------------------------------------------------------

/-- Map.get: the value stored at a key (keys are unique in every map the
pipeline builds, so first match equals the stored entry). -/
def lookupAssoc {α β : Type} [DecidableEq α] :
    List (α × β) → α → Option β
  | [], _ => none
  | p :: t, k => if p.1 = k then some p.2 else lookupAssoc t k

/-- Map.set on a key that is already present: replace the stored value,
keeping the position of the entry. -/
def replaceAssoc {α β : Type} [DecidableEq α] :
    List (α × β) → α → β → List (α × β)
  | [], _, _ => []
  | p :: t, k, v =>
      if p.1 = k then (p.1, v) :: replaceAssoc t k v
      else p :: replaceAssoc t k v

theorem lookupAssoc_append {α β : Type} [DecidableEq α]
    (m : List (α × β)) (k0 : α) (v : β) (k : α) :
    lookupAssoc (m ++ [(k0, v)]) k =
      match lookupAssoc m k with
      | some w => some w
      | none => if k0 = k then some v else none := by
  induction m with
  | nil => simp [lookupAssoc]
  | cons p t ih =>
      by_cases h : p.1 = k
      · simp [lookupAssoc, h]
      · simp [lookupAssoc, h, ih]

theorem lookupAssoc_replace {α β : Type} [DecidableEq α]
    (m : List (α × β)) (k0 : α) (v : β) (k : α) :
    lookupAssoc (replaceAssoc m k0 v) k =
      if k0 = k then (lookupAssoc m k).map (fun _ => v)
      else lookupAssoc m k := by
  induction m with
  | nil => simp [lookupAssoc, replaceAssoc]
  | cons p t ih =>
      by_cases h0 : k0 = k
      · subst h0
        by_cases hp : p.1 = k0
        · simp [lookupAssoc, replaceAssoc, hp]
        · simp [lookupAssoc, replaceAssoc, hp, ih]
      · by_cases hp : p.1 = k0
        · have hpk : ¬ (p.1 = k) := by
            rw [hp]
            exact h0
          simp [lookupAssoc, replaceAssoc, hp, hpk, ih, h0]
        · by_cases hk : p.1 = k
          · have hkk0 : ¬ (k = k0) := by
              rw [← hk]
              exact hp
            simp [lookupAssoc, replaceAssoc, hp, hk, hkk0, h0]
          · simp [lookupAssoc, replaceAssoc, hp, hk, ih, h0]

-- ---------------------------------------------------------------------------
-- parseData from the offline script: reduction of parsed climatetrace
-- records into the composite-key aggregate map and the output rows
-- ---------------------------------------------------------------------------

/-- A record produced by the external csv-parse library with the columns
header option: a mapping from column name to the string cell value, absent
for columns the file does not have. -/
def BatchRec : Type := String → Option String

/-- The composite region|year|sector key parseData builds for one record:
coordinates are parsed with parseFloat and resolved through closestRegion
when both are numbers (España otherwise), the year comes from the Date of
start_time, and the sector joins the sector and subsector columns. -/
def keyOfBatch (r : BatchRec) : String :=
  let lat := parseFloatOpt (r "lat")
  let lon := parseFloatOpt (r "lon")
  let year := jsDateFullYear (r "start_time")
  let region :=
    match lat, lon with
    | .fin la, .fin lo => closestRegion la lo
    | _, _ => "España"
  let sector := tmplStr (r "sector") ++ ":" ++ tmplStr (r "subsector")
  region ++ "|" ++ yearKeyStr year ++ "|" ++ sector

/-- The emissions contribution of one record: parseFloat of the
emissions_quantity column, with NaN contributing 0. -/
def addOfBatch (r : BatchRec) : ℚ :=
  match parseFloatOpt (r "emissions_quantity") with
  | .fin q => q
  | _ => 0

/-- One iteration of the parseData aggregation loop: add the emissions of
the record into the aggregate map at its composite key, appending a fresh
entry for a first-seen key (Map insertion order). -/
def parseDataStep (m : List (String × ℚ)) (r : BatchRec) :
    List (String × ℚ) :=
  match lookupAssoc m (keyOfBatch r) with
  | some prev => replaceAssoc m (keyOfBatch r) (prev + addOfBatch r)
  | none => m ++ [(keyOfBatch r, addOfBatch r)]

/-- The aggregate map built by parseData over a stream of records (all
archive entries concatenated, processed strictly sequentially). -/
def parseDataAggregate (rs : List BatchRec) : List (String × ℚ) :=
  rs.foldl parseDataStep []

/-- The field the output row writer obtains from destructuring key.split on
the | separator: a missing part is undefined and prints as undefined. -/
def destrPart (parts : List (List Char)) (i : ℕ) : String :=
  match parts.get? i with
  | some cs => String.mk cs
  | none => "undefined"

/-- The data rows of the output CSV written by parseData, one per aggregate
entry in map insertion order; each row interpolates the three parts of the
split key and the summed emissions value. -/
def parseDataRows (rs : List BatchRec) :
    List (String × String × String × ℚ) :=
  (parseDataAggregate rs).map (fun p =>
    let parts := splitCh '|' p.1.data
    (destrPart parts 0, destrPart parts 1, destrPart parts 2, p.2))

/-- First row of the input of end-to-end scenario A, as the csv-parse record
for header region,year,sector,emissions and row Madrid,2022,power,100. -/
def c1RowA : BatchRec := fun k =>
  if k = "region" then some "Madrid"
  else if k = "year" then some "2022"
  else if k = "sector" then some "power"
  else if k = "emissions" then some "100"
  else none

/-- Second row of the input of end-to-end scenario A: Madrid,2022,power,50. -/
def c1RowB : BatchRec := fun k =>
  if k = "region" then some "Madrid"
  else if k = "year" then some "2022"
  else if k = "sector" then some "power"
  else if k = "emissions" then some "50"
  else none

/-- Counterexample to claim C1: on the two-row scenario-A input with header
region,year,sector,emissions, the offline pipeline does produce exactly one
row, but that row is España,NaN,power:undefined,0 — the pipeline reads the
climatetrace columns lat, lon, start_time, sector, subsector and
emissions_quantity, so region, year and emissions of this input are ignored —
and not the claimed row Madrid,2022,power,150. -/
theorem claimC1_counterexample :
    parseDataRows [c1RowA, c1RowB] =
      [("España", "NaN", "power:undefined", 0)] ∧
    parseDataRows [c1RowA, c1RowB] ≠
      [("Madrid", "2022", "power", (150 : ℚ))] := by
  have h : parseDataRows [c1RowA, c1RowB] =
      [("España", "NaN", "power:undefined", 0)] := by
    simp [parseDataRows, parseDataAggregate, parseDataStep, keyOfBatch,
      addOfBatch, c1RowA, c1RowB, parseFloatOpt, parseFloatJs, strToNumJs, jsDateFullYear, splitCh,
      trimChars, digitsVal, lookupAssoc, replaceAssoc, destrPart, tmplStr,
      yearKeyStr, isWsChar, List.dropWhile_cons, List.takeWhile_cons,
      List.dropWhile_nil, List.takeWhile_nil, List.find?]
  refine ⟨h, ?_⟩
  rw [h]
  intro he
  exact absurd (List.head_eq_of_cons_eq he) (by simp)

/-- First row of the amended scenario: the same point source in the offline
batch schema, at the Madrid centroid, in 2022, sector power, subsector
plants, with 100 units of emissions. -/
def c1RowC : BatchRec := fun k =>
  if k = "lat" then some "40.4165"
  else if k = "lon" then some "-3.7026"
  else if k = "start_time" then some "2022-01-01"
  else if k = "sector" then some "power"
  else if k = "subsector" then some "plants"
  else if k = "emissions_quantity" then some "100"
  else none

/-- Second row of the amended scenario: same key, 50 units of emissions. -/
def c1RowD : BatchRec := fun k =>
  if k = "lat" then some "40.4165"
  else if k = "lon" then some "-3.7026"
  else if k = "start_time" then some "2022-01-01"
  else if k = "sector" then some "power"
  else if k = "subsector" then some "plants"
  else if k = "emissions_quantity" then some "50"
  else none

/-- Claim C1 as amended: batch aggregation with the composite
region|year|sector key merges rows sharing the key and sums their emissions;
for a two-row input in the offline schema whose rows both resolve to Madrid,
2022, sector power:plants, with emissions 100 and 50, the pipeline produces
exactly the single output row Madrid,2022,power:plants,150. -/
theorem claimC1_amended :
    parseDataRows [c1RowC, c1RowD] =
      [("Madrid", "2022", "power:plants", (150 : ℚ))] := by
  have hy : toString (2022 : ℤ) = "2022" := rfl
  simp [parseDataRows, parseDataAggregate, parseDataStep, keyOfBatch,
    addOfBatch, c1RowC, c1RowD, parseFloatOpt, parseFloatJs, strToNumJs, jsDateFullYear, splitCh,
    trimChars, digitsVal, lookupAssoc, replaceAssoc, destrPart, tmplStr,
    yearKeyStr, isWsChar, List.dropWhile_cons, List.takeWhile_cons,
    List.dropWhile_nil, List.takeWhile_nil, List.find?,
    closestRegion, regions, closestAux, distanceSq, hy]
  norm_num
  decide

-- ---------------------------------------------------------------------------
-- Runtime pipeline data model (components/MapVisualization.tsx)
-- ---------------------------------------------------------------------------

/-- A runtime CO2Data record as consumed by MapVisualization: the canonical
typed fields plus the open field bag used for metric lookup (item[metric]).
The bag is the single source for dynamically accessed columns. -/
structure CO2Data where
  region : String
  year : ℚ
  sector : String
  sectorCategory : String
  coordinates : Option (ℚ × ℚ)
  fields : String → Value

/-- The FilterState of the filter panel: none models an unset (null) filter,
matching the JavaScript truthiness guard on each filter field. -/
structure FilterState where
  region : Option String
  year : Option ℚ
  sectorCategory : Option String
  sector : Option String

/-- The REGION_COORDS fallback table of MapVisualization.tsx, including the
distinguished España entry. -/
def REGION_COORDS_list : List (String × ℚ × ℚ) :=
  [("Andalucía", 37.7749, -4.7324),
   ("Aragón", 41.5868, -0.8296),
   ("Asturias", 43.3619, -5.8494),
   ("Baleares", 39.6953, 3.0176),
   ("Canarias", 28.2916, -16.6291),
   ("Cantabria", 43.1828, -3.9878),
   ("Castilla-La Mancha", 39.5663, -2.9908),
   ("Castilla y León", 41.6523, -4.7245),
   ("Cataluña", 41.8019, 1.8734),
   ("Comunidad Valenciana", 39.484, -0.7532),
   ("Extremadura", 39.1622, -6.3432),
   ("Galicia", 42.5751, -8.1339),
   ("Madrid", 40.4165, -3.7026),
   ("Murcia", 37.9922, -1.1307),
   ("Navarra", 42.6954, -1.6761),
   ("País Vasco", 43.263, -2.934),
   ("La Rioja", 42.2871, -2.5396),
   ("España", 40.4168, -3.7038)]

/-- REGION_COORDS object lookup. -/
def REGION_COORDS (r : String) : Option (ℚ × ℚ) :=
  lookupAssoc REGION_COORDS_list r

/-- The grouping key of the runtime aggregation: the source keys the Map by
the template string lat,lng when coordinates are available (own or from
REGION_COORDS) and by the region name otherwise.  Distinct coordinate pairs
and distinct region names produce distinct key strings, which the two
constructors model. -/
inductive Key where
  | coord (la ln : ℚ)
  | regionKey (r : String)
deriving DecidableEq, Repr

/-- An aggregate entry of the runtime Map: the spread of the first record
seen for the key (region and field bag) plus the running count. -/
structure Entry where
  region : String
  fields : String → Value
  count : ℕ

/-- The grouping key of one record: own coordinates, else the REGION_COORDS
fallback, else the region name. -/
def keyOf (item : CO2Data) : Key :=
  match (match item.coordinates with
         | some c => some c
         | none => REGION_COORDS item.region) with
  | some c => Key.coord c.1 c.2
  | none => Key.regionKey item.region

/-- The inner forEach over selectedMetrics: for each selected metric, when
both the incoming raw value and the stored value are of number type, replace
the stored value by stored + raw (JavaScript addition); otherwise leave the
stored value unchanged. -/
def updateMetrics : List String → (String → Value) → (String → Value) →
    String → Value
  | [], ef, _ => ef
  | metric :: rest, ef, rf =>
      updateMetrics rest
        (match rf metric, ef metric with
         | .jsn a, .jsn b =>
             fun s => if s = metric then .jsn (b.add a) else ef s
         | _, _ => ef) rf

/-- One iteration of the aggregatedData forEach of MapVisualization.tsx:
compute the key, then either merge into the existing entry (sum selected
metrics that are numbers on both sides, bump count) or store the record as a
fresh entry at the end of the Map. -/
def stepRuntime (ms : List String) (m : List (Key × Entry)) (item : CO2Data) :
    List (Key × Entry) :=
  match lookupAssoc m (keyOf item) with
  | some e =>
      replaceAssoc m (keyOf item)
        ⟨e.region, updateMetrics ms e.fields item.fields, e.count + 1⟩
  | none => m ++ [(keyOf item, ⟨item.region, item.fields, 1⟩)]

/-- The aggregatedData Map of MapVisualization.tsx, built by a single pass
over the filtered records. -/
def aggregatedData (ms : List String) (l : List CO2Data) :
    List (Key × Entry) :=
  l.foldl (stepRuntime ms) []

/-- The filteredData memo of MapVisualization.tsx: records must match every
set filter field. -/
def filteredData (data : List CO2Data) (f : FilterState) : List CO2Data :=
  data.filter (fun item =>
    (match f.region with
     | none => true
     | some fr => decide (item.region = fr)) &&
    (match f.year with
     | none => true
     | some fy => decide (item.year = fy)) &&
    (match f.sectorCategory with
     | none => true
     | some fc => decide (item.sectorCategory = fc)) &&
    (match f.sector with
     | none => true
     | some fs => decide (item.sector = fs)))

/-- The filteredWithoutSpain memo: filtered records whose region is not the
distinguished España value. -/
def filteredWithoutSpain (data : List CO2Data) (f : FilterState) :
    List CO2Data :=
  (filteredData data f).filter (fun item => decide (item.region ≠ "España"))

/-- The spainTotal memo: the sum, over filtered records with region España,
of the first selected metric where its value is a finite number; 0 when no
metric is selected (the source guard also treats an empty-string metric name
as unset, because the empty string is falsy). -/
def spainTotal (data : List CO2Data) (f : FilterState) (ms : List String) :
    ℚ :=
  match ms with
  | [] => 0
  | metric :: _ =>
      if metric = "" then 0
      else
        ((filteredData data f).filter
          (fun item => decide (item.region = "España"))).foldl
          (fun s item =>
            match item.fields metric with
            | .jsn (.fin v) => s + v
            | _ => s) 0

theorem stepRuntime_lookup_self (ms : List String) (m : List (Key × Entry))
    (item : CO2Data) :
    lookupAssoc (stepRuntime ms m item) (keyOf item) =
      some (match lookupAssoc m (keyOf item) with
        | some e =>
            ⟨e.region, updateMetrics ms e.fields item.fields, e.count + 1⟩
        | none => ⟨item.region, item.fields, 1⟩) := by
  unfold stepRuntime
  cases h : lookupAssoc m (keyOf item) with
  | some e => simp [lookupAssoc_replace, h]
  | none => simp [lookupAssoc_append, h]

theorem stepRuntime_lookup_other (ms : List String) (m : List (Key × Entry))
    (item : CO2Data) (k : Key) (hk : k ≠ keyOf item) :
    lookupAssoc (stepRuntime ms m item) k = lookupAssoc m k := by
  have hne : ¬ (keyOf item = k) := by
    intro he
    exact hk he.symm
  unfold stepRuntime
  cases h : lookupAssoc m (keyOf item) with
  | some e =>
      rw [lookupAssoc_replace]
      simp [hne]
  | none =>
      rw [lookupAssoc_append]
      cases h2 : lookupAssoc m k with
      | some w => rfl
      | none => simp [hne]

theorem parseDataStep_lookup_self (m : List (String × ℚ)) (r : BatchRec) :
    lookupAssoc (parseDataStep m r) (keyOfBatch r) =
      some ((lookupAssoc m (keyOfBatch r)).getD 0 + addOfBatch r) := by
  unfold parseDataStep
  cases h : lookupAssoc m (keyOfBatch r) with
  | some prev => simp [lookupAssoc_replace, h]
  | none => simp [lookupAssoc_append, h]

theorem parseDataStep_lookup_other (m : List (String × ℚ)) (r : BatchRec)
    (k : String) (hk : k ≠ keyOfBatch r) :
    lookupAssoc (parseDataStep m r) k = lookupAssoc m k := by
  have hne : ¬ (keyOfBatch r = k) := by
    intro he
    exact hk he.symm
  unfold parseDataStep
  cases h : lookupAssoc m (keyOfBatch r) with
  | some prev =>
      rw [lookupAssoc_replace]
      simp [hne]
  | none =>
      rw [lookupAssoc_append]
      cases h2 : lookupAssoc m k with
      | some w => rfl
      | none => simp [hne]

theorem parseDataStep_congr (m₁ m₂ : List (String × ℚ)) (r : BatchRec)
    (h : ∀ k, lookupAssoc m₁ k = lookupAssoc m₂ k) :
    ∀ k, lookupAssoc (parseDataStep m₁ r) k =
      lookupAssoc (parseDataStep m₂ r) k := by
  intro k
  by_cases hk : k = keyOfBatch r
  · subst hk
    rw [parseDataStep_lookup_self, parseDataStep_lookup_self, h]
  · rw [parseDataStep_lookup_other _ _ _ hk, parseDataStep_lookup_other _ _ _ hk]
    exact h k

theorem parseDataStep_swap (m : List (String × ℚ)) (x y : BatchRec) :
    ∀ k, lookupAssoc (parseDataStep (parseDataStep m x) y) k =
      lookupAssoc (parseDataStep (parseDataStep m y) x) k := by
  intro k
  by_cases hky : k = keyOfBatch y
  · subst hky
    by_cases hxy : keyOfBatch y = keyOfBatch x
    · have sx : lookupAssoc (parseDataStep m x) (keyOfBatch y) =
          some ((lookupAssoc m (keyOfBatch y)).getD 0 + addOfBatch x) := by
        rw [hxy]
        exact parseDataStep_lookup_self m x
      have sy : lookupAssoc (parseDataStep m y) (keyOfBatch x) =
          some ((lookupAssoc m (keyOfBatch x)).getD 0 + addOfBatch y) := by
        rw [← hxy]
        exact parseDataStep_lookup_self m y
      rw [parseDataStep_lookup_self, sx, hxy, parseDataStep_lookup_self, sy]
      simp
      ring
    · rw [parseDataStep_lookup_self]
      rw [parseDataStep_lookup_other _ _ _ hxy]
      rw [parseDataStep_lookup_other _ _ _ hxy]
      rw [parseDataStep_lookup_self]
  · by_cases hkx : k = keyOfBatch x
    · subst hkx
      have hyx : keyOfBatch x ≠ keyOfBatch y := fun he => hky he
      rw [parseDataStep_lookup_other _ _ _ hyx, parseDataStep_lookup_self]
      rw [parseDataStep_lookup_self, parseDataStep_lookup_other _ _ _ hyx]
    · rw [parseDataStep_lookup_other _ _ _ hky,
        parseDataStep_lookup_other _ _ _ hkx,
        parseDataStep_lookup_other _ _ _ hkx,
        parseDataStep_lookup_other _ _ _ hky]

theorem parseData_foldl_congr (l : List BatchRec) :
    ∀ (m₁ m₂ : List (String × ℚ)),
      (∀ k, lookupAssoc m₁ k = lookupAssoc m₂ k) →
      ∀ k, lookupAssoc (l.foldl parseDataStep m₁) k =
        lookupAssoc (l.foldl parseDataStep m₂) k := by
  induction l with
  | nil => intro m₁ m₂ h; exact h
  | cons r t ih =>
      intro m₁ m₂ h
      exact ih _ _ (parseDataStep_congr m₁ m₂ r h)

theorem parseData_foldl_perm {l₁ l₂ : List BatchRec} (hp : l₁.Perm l₂) :
    ∀ (m₁ m₂ : List (String × ℚ)),
      (∀ k, lookupAssoc m₁ k = lookupAssoc m₂ k) →
      ∀ k, lookupAssoc (l₁.foldl parseDataStep m₁) k =
        lookupAssoc (l₂.foldl parseDataStep m₂) k := by
  induction hp with
  | nil => intro m₁ m₂ h; exact h
  | cons x p ih =>
      intro m₁ m₂ h
      exact ih _ _ (parseDataStep_congr m₁ m₂ x h)
  | swap x y l =>
      intro m₁ m₂ h
      simp only [List.foldl_cons]
      apply parseData_foldl_congr
      intro k
      have h1 : ∀ k, lookupAssoc (parseDataStep (parseDataStep m₁ y) x) k =
          lookupAssoc (parseDataStep (parseDataStep m₂ y) x) k :=
        parseDataStep_congr _ _ x (parseDataStep_congr m₁ m₂ y h)
      rw [h1 k]
      exact (parseDataStep_swap m₂ x y k).symm
  | trans p₁ p₂ ih₁ ih₂ =>
      intro m₁ m₂ h
      intro k
      exact (ih₁ m₁ m₁ (fun _ => rfl) k).trans (ih₂ m₁ m₂ h k)

theorem updateMetrics_not_mem :
    ∀ (ms : List String) (f rf : String → Value) (m : String), m ∉ ms →
      updateMetrics ms f rf m = f m := by
  intro ms
  induction ms with
  | nil => intro f rf m hm; rfl
  | cons m₀ rest ih =>
      intro f rf m hm
      have hne : m ≠ m₀ := by
        intro h
        exact hm (h ▸ List.mem_cons_self m₀ rest)
      have hnr : m ∉ rest := fun h => hm (List.mem_cons_of_mem _ h)
      rw [updateMetrics, ih _ _ _ hnr]
      cases h1 : rf m₀ <;> cases h2 : f m₀ <;> simp [h1, h2, hne]

theorem updateMetrics_eval :
    ∀ (ms : List String), ms.Nodup → ∀ (f rf : String → Value) (m : String),
      m ∈ ms →
      updateMetrics ms f rf m =
        (match rf m, f m with
         | .jsn a, .jsn b => .jsn (b.add a)
         | _, _ => f m) := by
  intro ms
  induction ms with
  | nil => intro _ f rf m hm; cases hm
  | cons m₀ rest ih =>
      intro hnd f rf m hm
      have hnd0 : m₀ ∉ rest := (List.nodup_cons.mp hnd).1
      have hndr : rest.Nodup := (List.nodup_cons.mp hnd).2
      rw [updateMetrics]
      by_cases hmm : m = m₀
      · subst hmm
        rw [updateMetrics_not_mem rest _ rf m hnd0]
        cases h1 : rf m <;> cases h2 : f m <;> simp [h1, h2]
      · have hmr : m ∈ rest := by
          rcases List.mem_cons.mp hm with h | h
          · exact absurd h hmm
          · exact h
        rw [ih hndr _ rf m hmr]
        have hfm : (match rf m₀, f m₀ with
            | Value.jsn a, Value.jsn b =>
                fun s => if s = m₀ then Value.jsn (b.add a) else f s
            | _, _ => f) m = f m := by
          cases h1 : rf m₀ <;> cases h2 : f m₀ <;> simp [h1, h2, hmm]
        rw [hfm]

theorem updateMetrics_agree (T : List String) :
    ∀ (ms : List String) (f₁ f₂ rf : String → Value),
      (∀ m ∈ T, f₁ m = f₂ m) → (∀ m ∈ ms, m ∈ T) →
      ∀ m ∈ T, updateMetrics ms f₁ rf m = updateMetrics ms f₂ rf m := by
  intro ms
  induction ms with
  | nil => intro f₁ f₂ rf hagree _ m hm; exact hagree m hm
  | cons m₀ rest ih =>
      intro f₁ f₂ rf hagree hsub m hm
      rw [updateMetrics, updateMetrics]
      have h0 : f₁ m₀ = f₂ m₀ := hagree m₀ (hsub m₀ (List.mem_cons_self _ _))
      apply ih _ _ rf _ (fun x hx => hsub x (List.mem_cons_of_mem _ hx)) m hm
      intro s hs
      rw [h0]
      cases h1 : rf m₀ <;> cases h2 : f₂ m₀ <;> simp [h1, h2, hagree s hs]

/-- Observational equality of two aggregate maps: same count and same value
of every selected metric at every key.  This is exactly what claim C3
compares (entries may differ in fields outside the selected metrics, which
come from whichever record was seen first). -/
def ObsEq (ms : List String) (m₁ m₂ : List (Key × Entry)) : Prop :=
  ∀ k,
    ((lookupAssoc m₁ k).map Entry.count =
      (lookupAssoc m₂ k).map Entry.count) ∧
    ∀ metric ∈ ms,
      (lookupAssoc m₁ k).map (fun e => e.fields metric) =
        (lookupAssoc m₂ k).map (fun e => e.fields metric)

theorem obsEq_refl (ms : List String) (m : List (Key × Entry)) :
    ObsEq ms m m :=
  fun _ => ⟨rfl, fun _ _ => rfl⟩

theorem obsEq_trans {ms : List String} {m₁ m₂ m₃ : List (Key × Entry)}
    (h₁ : ObsEq ms m₁ m₂) (h₂ : ObsEq ms m₂ m₃) : ObsEq ms m₁ m₃ :=
  fun k => ⟨(h₁ k).1.trans (h₂ k).1,
    fun mt hmt => ((h₁ k).2 mt hmt).trans ((h₂ k).2 mt hmt)⟩

theorem stepRuntime_obs_congr (ms : List String)
    (m₁ m₂ : List (Key × Entry)) (item : CO2Data) (h : ObsEq ms m₁ m₂) :
    ObsEq ms (stepRuntime ms m₁ item) (stepRuntime ms m₂ item) := by
  intro k
  by_cases hk : k = keyOf item
  · subst hk
    rw [stepRuntime_lookup_self, stepRuntime_lookup_self]
    obtain ⟨hc, hf⟩ := h (keyOf item)
    cases h1 : lookupAssoc m₁ (keyOf item) with
    | none =>
        cases h2 : lookupAssoc m₂ (keyOf item) with
        | none => exact ⟨rfl, fun _ _ => rfl⟩
        | some e₂ =>
            rw [h1, h2] at hc
            simp at hc
    | some e₁ =>
        cases h2 : lookupAssoc m₂ (keyOf item) with
        | none =>
            rw [h1, h2] at hc
            simp at hc
        | some e₂ =>
            rw [h1, h2] at hc hf
            have hcnt : e₁.count = e₂.count := by simpa using hc
            have hfm : ∀ m ∈ ms, e₁.fields m = e₂.fields m := by
              intro m hm
              simpa using hf m hm
            constructor
            · simp [hcnt]
            · intro mt hmt
              simp [updateMetrics_agree ms ms e₁.fields e₂.fields item.fields
                hfm (fun _ hx => hx) mt hmt]
  · rw [stepRuntime_lookup_other _ _ _ _ hk,
      stepRuntime_lookup_other _ _ _ _ hk]
    exact h k

theorem stepRuntime_obs_swap (ms : List String) (hnd : ms.Nodup)
    (m : List (Key × Entry)) (x y : CO2Data)
    (hx : ∀ mt ∈ ms, (x.fields mt).isNumberType = true)
    (hy : ∀ mt ∈ ms, (y.fields mt).isNumberType = true) :
    ObsEq ms (stepRuntime ms (stepRuntime ms m x) y)
      (stepRuntime ms (stepRuntime ms m y) x) := by
  intro k
  by_cases hky : k = keyOf y
  · subst hky
    by_cases hxy : keyOf y = keyOf x
    · have sx : lookupAssoc (stepRuntime ms m x) (keyOf y) =
          some (match lookupAssoc m (keyOf x) with
            | some e =>
                ⟨e.region, updateMetrics ms e.fields x.fields, e.count + 1⟩
            | none => ⟨x.region, x.fields, 1⟩) := by
        rw [hxy]
        exact stepRuntime_lookup_self ms m x
      have sy : lookupAssoc (stepRuntime ms m y) (keyOf x) =
          some (match lookupAssoc m (keyOf x) with
            | some e =>
                ⟨e.region, updateMetrics ms e.fields y.fields, e.count + 1⟩
            | none => ⟨y.region, y.fields, 1⟩) := by
        rw [← hxy]
        have := stepRuntime_lookup_self ms m y
        rw [this, hxy]
      rw [stepRuntime_lookup_self, sx, hxy, stepRuntime_lookup_self, sy]
      cases h0 : lookupAssoc m (keyOf x) with
      | some e =>
          constructor
          · simp
          · intro mt hmt
            simp only [Option.map_some', Option.some.injEq]
            have ex := updateMetrics_eval ms hnd e.fields x.fields mt hmt
            have ey := updateMetrics_eval ms hnd e.fields y.fields mt hmt
            have exy := updateMetrics_eval ms hnd
              (updateMetrics ms e.fields x.fields) y.fields mt hmt
            have eyx := updateMetrics_eval ms hnd
              (updateMetrics ms e.fields y.fields) x.fields mt hmt
            rw [exy, eyx, ex, ey]
            obtain ⟨ax, hax⟩ : ∃ a, x.fields mt = .jsn a := by
              have hxm := hx mt hmt
              cases hv : x.fields mt with
              | jsn a => exact ⟨a, rfl⟩
              | str s => rw [hv] at hxm; simp [Value.isNumberType] at hxm
              | undef => rw [hv] at hxm; simp [Value.isNumberType] at hxm
            obtain ⟨ay, hay⟩ : ∃ a, y.fields mt = .jsn a := by
              have hym := hy mt hmt
              cases hv : y.fields mt with
              | jsn a => exact ⟨a, rfl⟩
              | str s => rw [hv] at hym; simp [Value.isNumberType] at hym
              | undef => rw [hv] at hym; simp [Value.isNumberType] at hym
            rw [hax, hay]
            cases he : e.fields mt with
            | jsn b => simp [JsNum.add_right_comm_js]
            | str s => simp [hax, hay]
            | undef => simp [hax, hay]
      | none =>
          constructor
          · simp
          · intro mt hmt
            simp only [Option.map_some', Option.some.injEq]
            have exy := updateMetrics_eval ms hnd x.fields y.fields mt hmt
            have eyx := updateMetrics_eval ms hnd y.fields x.fields mt hmt
            rw [exy, eyx]
            obtain ⟨ax, hax⟩ : ∃ a, x.fields mt = .jsn a := by
              have hxm := hx mt hmt
              cases hv : x.fields mt with
              | jsn a => exact ⟨a, rfl⟩
              | str s => rw [hv] at hxm; simp [Value.isNumberType] at hxm
              | undef => rw [hv] at hxm; simp [Value.isNumberType] at hxm
            obtain ⟨ay, hay⟩ : ∃ a, y.fields mt = .jsn a := by
              have hym := hy mt hmt
              cases hv : y.fields mt with
              | jsn a => exact ⟨a, rfl⟩
              | str s => rw [hv] at hym; simp [Value.isNumberType] at hym
              | undef => rw [hv] at hym; simp [Value.isNumberType] at hym
            rw [hax, hay]
            simp [JsNum.add_comm_js]
    · have hyx : keyOf y ≠ keyOf x := hxy
      rw [stepRuntime_lookup_self,
        stepRuntime_lookup_other ms m x (keyOf y) hyx,
        stepRuntime_lookup_other ms (stepRuntime ms m y) x (keyOf y) hyx,
        stepRuntime_lookup_self]
      exact ⟨rfl, fun _ _ => rfl⟩
  · by_cases hkx : k = keyOf x
    · subst hkx
      have hxyne : keyOf x ≠ keyOf y := hky
      rw [stepRuntime_lookup_other ms (stepRuntime ms m x) y (keyOf x) hxyne,
        stepRuntime_lookup_self, stepRuntime_lookup_self,
        stepRuntime_lookup_other ms m y (keyOf x) hxyne]
      exact ⟨rfl, fun _ _ => rfl⟩
    · rw [stepRuntime_lookup_other ms (stepRuntime ms m x) y k hky,
        stepRuntime_lookup_other ms m x k hkx,
        stepRuntime_lookup_other ms (stepRuntime ms m y) x k hkx,
        stepRuntime_lookup_other ms m y k hky]
      exact ⟨rfl, fun _ _ => rfl⟩

theorem aggRuntime_foldl_congr (ms : List String) (l : List CO2Data) :
    ∀ (m₁ m₂ : List (Key × Entry)), ObsEq ms m₁ m₂ →
      ObsEq ms (l.foldl (stepRuntime ms) m₁) (l.foldl (stepRuntime ms) m₂) := by
  induction l with
  | nil => intro m₁ m₂ h; exact h
  | cons item t ih =>
      intro m₁ m₂ h
      exact ih _ _ (stepRuntime_obs_congr ms m₁ m₂ item h)

theorem aggRuntime_foldl_perm (ms : List String) (hnd : ms.Nodup)
    {l₁ l₂ : List CO2Data} (hp : l₁.Perm l₂) :
    (∀ r ∈ l₁, ∀ mt ∈ ms, (r.fields mt).isNumberType = true) →
    ∀ (m₁ m₂ : List (Key × Entry)), ObsEq ms m₁ m₂ →
      ObsEq ms (l₁.foldl (stepRuntime ms) m₁)
        (l₂.foldl (stepRuntime ms) m₂) := by
  induction hp with
  | nil =>
      intro _ m₁ m₂ h
      exact h
  | cons x p ih =>
      intro hnum m₁ m₂ h
      exact ih (fun r hr => hnum r (List.mem_cons_of_mem _ hr)) _ _
        (stepRuntime_obs_congr ms m₁ m₂ x h)
  | swap x y l =>
      intro hnum m₁ m₂ h
      simp only [List.foldl_cons]
      apply aggRuntime_foldl_congr
      have hy : ∀ mt ∈ ms, (y.fields mt).isNumberType = true :=
        hnum y (List.mem_cons_self _ _)
      have hx : ∀ mt ∈ ms, (x.fields mt).isNumberType = true :=
        hnum x (List.mem_cons_of_mem _ (List.mem_cons_self _ _))
      exact obsEq_trans
        (stepRuntime_obs_congr ms _ _ x (stepRuntime_obs_congr ms m₁ m₂ y h))
        (stepRuntime_obs_swap ms hnd m₂ y x hy hx)
  | trans p₁ p₂ ih₁ ih₂ =>
      intro hnum m₁ m₂ h
      have hnum₂ := fun r hr => hnum r (p₁.mem_iff.mpr hr)
      exact obsEq_trans (ih₁ hnum m₁ m₁ (obsEq_refl ms m₁))
        (ih₂ hnum₂ m₁ m₂ h)

/-- Claim C3 as amended: the batch composite-key aggregation is permutation
invariant unconditionally (every key holds the same summed emissions under
any input reordering); the runtime coordinate-key aggregation is permutation
invariant in every count and in every selected metric value provided the
selected metric names are distinct and every record carries a value of
number type for every selected metric.  (The counterexample shows the
runtime half fails without the number-type hypothesis.) -/
theorem claimC3_amended :
    (∀ (l₁ l₂ : List BatchRec), l₁.Perm l₂ →
      ∀ k, lookupAssoc (parseDataAggregate l₁) k =
        lookupAssoc (parseDataAggregate l₂) k) ∧
    (∀ (ms : List String), ms.Nodup →
      ∀ (l₁ l₂ : List CO2Data), l₁.Perm l₂ →
      (∀ r ∈ l₁, ∀ mt ∈ ms, (r.fields mt).isNumberType = true) →
      ∀ k,
        ((lookupAssoc (aggregatedData ms l₁) k).map Entry.count =
          (lookupAssoc (aggregatedData ms l₂) k).map Entry.count) ∧
        ∀ mt ∈ ms,
          (lookupAssoc (aggregatedData ms l₁) k).map (fun e => e.fields mt) =
            (lookupAssoc (aggregatedData ms l₂) k).map
              (fun e => e.fields mt)) := by
  constructor
  · intro l₁ l₂ hp k
    exact parseData_foldl_perm hp [] [] (fun _ => rfl) k
  · intro ms hnd l₁ l₂ hp hnum k
    exact aggRuntime_foldl_perm ms hnd hp hnum [] [] (obsEq_refl ms []) k

/-- A runtime record at the Madrid fallback coordinates whose value for the
metric foo is undefined (scenario for the claim C3 counterexample). -/
def c3RecA : CO2Data :=
  ⟨"Madrid", 2022, "s1", "c1", none, fun _ => .undef⟩

/-- A runtime record at the same key whose value for the metric foo is the
number 5. -/
def c3RecB : CO2Data :=
  ⟨"Madrid", 2022, "s2", "c1", none,
   fun mt => if mt = "foo" then .jsn (.fin 5) else .undef⟩

/-- Counterexample to claim C3 as stated: swapping the two records changes
the aggregate value of the selected metric foo at their shared key.  When
the undefined-valued record comes first, the stored value stays undefined
(the merge only adds when both sides are numbers); when the number-valued
record comes first, the stored value is 5. -/
theorem claimC3_counterexample :
    [c3RecA, c3RecB].Perm [c3RecB, c3RecA] ∧
    (lookupAssoc (aggregatedData ["foo"] [c3RecA, c3RecB])
        (Key.coord 40.4165 (-3.7026))).map (fun e => e.fields "foo") =
      some .undef ∧
    (lookupAssoc (aggregatedData ["foo"] [c3RecB, c3RecA])
        (Key.coord 40.4165 (-3.7026))).map (fun e => e.fields "foo") =
      some (.jsn (.fin 5)) ∧
    some Value.undef ≠ some (Value.jsn (.fin 5)) := by
  refine ⟨List.Perm.swap c3RecB c3RecA [], ?_, ?_, by simp⟩
  · simp [aggregatedData, stepRuntime, keyOf, c3RecA, c3RecB, REGION_COORDS,
      REGION_COORDS_list, lookupAssoc, replaceAssoc, updateMetrics]
  · simp [aggregatedData, stepRuntime, keyOf, c3RecA, c3RecB, REGION_COORDS,
      REGION_COORDS_list, lookupAssoc, replaceAssoc, updateMetrics]

/-- A record with a numeric emissions value, at the Madrid key. -/
def c3RecN1 : CO2Data :=
  ⟨"Madrid", 2022, "s1", "c1", none,
   fun mt => if mt = "emissions" then .jsn (.fin 100) else .undef⟩

/-- A record with a numeric emissions value, at the Galicia key. -/
def c3RecN2 : CO2Data :=
  ⟨"Galicia", 2021, "s2", "c1", none,
   fun mt => if mt = "emissions" then .jsn (.fin 50) else .undef⟩

/-- Witness for claim C3 as amended: for two all-numeric records, the count
at the Madrid key is unchanged by swapping the input order. -/
theorem claimC3_amended_witness :
    (lookupAssoc (aggregatedData ["emissions"] [c3RecN1, c3RecN2])
        (Key.coord 40.4165 (-3.7026))).map Entry.count =
      (lookupAssoc (aggregatedData ["emissions"] [c3RecN2, c3RecN1])
        (Key.coord 40.4165 (-3.7026))).map Entry.count :=
  (claimC3_amended.2 ["emissions"] (by simp) [c3RecN1, c3RecN2]
    [c3RecN2, c3RecN1] (List.Perm.swap c3RecN2 c3RecN1 [])
    (by
      intro r hr mt hmt
      simp only [List.mem_singleton] at hmt
      subst hmt
      simp only [List.mem_cons, List.mem_singleton, List.not_mem_nil,
        or_false] at hr
      rcases hr with rfl | rfl
      · rfl
      · rfl)
    (Key.coord 40.4165 (-3.7026))).1

-- ---------------------------------------------------------------------------
-- Claim C10: exclusion of España records from the marker aggregation
-- ---------------------------------------------------------------------------

theorem stepRuntime_preserves_no_spain (ms : List String)
    (m : List (Key × Entry)) (item : CO2Data)
    (hm : ∀ k e, lookupAssoc m k = some e →
      e.region ≠ "España" ∧ k ≠ Key.regionKey "España")
    (hitem : item.region ≠ "España") :
    ∀ k e, lookupAssoc (stepRuntime ms m item) k = some e →
      e.region ≠ "España" ∧ k ≠ Key.regionKey "España" := by
  intro k e hke
  by_cases hk : k = keyOf item
  · subst hk
    rw [stepRuntime_lookup_self] at hke
    have hkey : keyOf item ≠ Key.regionKey "España" := by
      unfold keyOf
      cases hc : (match item.coordinates with
        | some c => some c
        | none => REGION_COORDS item.region) with
      | some c => simp
      | none =>
          simp only [Key.regionKey.injEq, ne_eq]
          exact hitem
    cases h0 : lookupAssoc m (keyOf item) with
    | some e₀ =>
        rw [h0] at hke
        have he := Option.some.inj hke
        refine ⟨?_, hkey⟩
        rw [← he]
        exact (hm (keyOf item) e₀ h0).1
    | none =>
        rw [h0] at hke
        have he := Option.some.inj hke
        refine ⟨?_, hkey⟩
        rw [← he]
        exact hitem
  · rw [stepRuntime_lookup_other _ _ _ _ hk] at hke
    exact hm k e hke

theorem aggRuntime_no_spain (ms : List String) (l : List CO2Data)
    (hl : ∀ r ∈ l, r.region ≠ "España") :
    ∀ (m : List (Key × Entry)),
      (∀ k e, lookupAssoc m k = some e →
        e.region ≠ "España" ∧ k ≠ Key.regionKey "España") →
      ∀ k e, lookupAssoc (l.foldl (stepRuntime ms) m) k = some e →
        e.region ≠ "España" ∧ k ≠ Key.regionKey "España" := by
  induction l with
  | nil => intro m hm; exact hm
  | cons item t ih =>
      intro m hm
      exact ih (fun r hr => hl r (List.mem_cons_of_mem _ hr)) _
        (stepRuntime_preserves_no_spain ms m item hm
          (hl item (List.mem_cons_self _ _)))

theorem spainTotal_foldl_sum (metric : String) (l : List CO2Data) :
    ∀ init : ℚ,
      l.foldl (fun s item =>
        match item.fields metric with
        | .jsn (.fin v) => s + v
        | _ => s) init =
      init + (l.map (fun item =>
        match item.fields metric with
        | .jsn (.fin v) => v
        | _ => 0)).sum := by
  induction l with
  | nil => intro init; simp
  | cons item t ih =>
      intro init
      rw [List.foldl_cons, List.map_cons, List.sum_cons, ih]
      cases hv : item.fields metric with
      | jsn n =>
          cases n with
          | fin v => ring
          | nan => simp
          | pinf => simp
          | ninf => simp
      | str s => simp
      | undef => simp

/-- Claim C10: for every record set, filter state and metric selection, the
marker aggregation built from filteredWithoutSpain never contains an entry
whose region is España, and never an entry keyed by the España region name;
España records contribute only to spainTotal, which equals the sum of the
first selected metric (finite numeric values only) over the filtered records
with region España. -/
theorem claimC10_spain_exclusion :
    (∀ (data : List CO2Data) (f : FilterState) (ms : List String)
        (k : Key) (e : Entry),
        lookupAssoc (aggregatedData ms (filteredWithoutSpain data f)) k =
          some e →
        e.region ≠ "España" ∧ k ≠ Key.regionKey "España") ∧
    (∀ (data : List CO2Data) (f : FilterState) (metric : String)
        (rest : List String), metric ≠ "" →
        spainTotal data f (metric :: rest) =
          (((filteredData data f).filter
            (fun item => decide (item.region = "España"))).map
            (fun item =>
              match item.fields metric with
              | .jsn (.fin v) => v
              | _ => 0)).sum) := by
  constructor
  · intro data f ms k e hke
    have hl : ∀ r ∈ filteredWithoutSpain data f, r.region ≠ "España" := by
      intro r hr
      have := (List.mem_filter.mp hr).2
      simpa using this
    exact aggRuntime_no_spain ms (filteredWithoutSpain data f) hl []
      (by intro k0 e0 h0; cases h0) k e hke
  · intro data f metric rest hmt
    simp only [spainTotal]
    rw [if_neg hmt, spainTotal_foldl_sum, zero_add]

/-- Witness for claim C10: the single-Madrid-record aggregation entry is not
an España entry, and the España national total of that record set is 0. -/
theorem claimC10_spain_exclusion_witness :
    (Entry.region ⟨"Madrid", c3RecN1.fields, 1⟩ ≠ "España" ∧
      Key.coord 40.4165 (-3.7026) ≠ Key.regionKey "España") ∧
    spainTotal [c3RecN1] ⟨none, none, none, none⟩ ["emissions"] = 0 := by
  constructor
  · apply claimC10_spain_exclusion.1 [c3RecN1] ⟨none, none, none, none⟩
      ["emissions"] (Key.coord 40.4165 (-3.7026))
    simp [filteredWithoutSpain, filteredData, aggregatedData, stepRuntime,
      keyOf, c3RecN1, REGION_COORDS, REGION_COORDS_list, lookupAssoc]
  · rw [claimC10_spain_exclusion.2 [c3RecN1] ⟨none, none, none, none⟩
      "emissions" [] (by simp)]
    simp [filteredData, c3RecN1]

-- ---------------------------------------------------------------------------
-- Visual Encoder (metricRanges, getMarkerColor, getMarkerSize)
-- ---------------------------------------------------------------------------

/-- The JavaScript ToNumber coercion applied to a record value when it is
used in arithmetic or in isFinite: numbers pass through, strings go through
the Number() string parsing, undefined becomes NaN. -/
def Value.toNumberJs : Value → JsNum
  | .jsn n => n
  | .str s => strToNumJs s
  | .undef => .nan

/-- Multiplication of a possibly non-finite number by a positive finite
constant (the 15 of the radius formula): NaN propagates and infinities keep
their sign. -/
def JsNum.mulPos (n : JsNum) (c : ℚ) : JsNum :=
  match n with
  | .fin q => .fin (q * c)
  | .nan => .nan
  | .pinf => .pinf
  | .ninf => .ninf

/-- The metricRanges memo of MapVisualization.tsx: for each selected metric,
the minimum and maximum over the aggregate values that are finite numbers
(typeof number and isFinite); no entry when there is no such value or the
metric is not selected. -/
def metricRanges (ms : List String) (aggs : List Entry) (metric : String) :
    Option (ℚ × ℚ) :=
  if ms.contains metric then
    match aggs.filterMap (fun e =>
      match e.fields metric with
      | .jsn (.fin q) => some q
      | _ => none) with
    | [] => none
    | v :: vs => some (vs.foldl min v, vs.foldl max v)
  else none

/-- getMarkerColor from MapVisualization.tsx: gray when the range is absent
or the value is not finite, otherwise the bucket of the normalized value
(v - min) / (max - min): strictly above 0.7 red, strictly above 0.4 orange,
else green. -/
def getMarkerColor (ranges : String → Option (ℚ × ℚ)) (item : Entry)
    (metric : String) : String :=
  match ranges metric with
  | none => "#6b7280"
  | some (mn, mx) =>
      match (item.fields metric).toNumberJs with
      | .fin v =>
          let norm := JsNum.divQ (v - mn) (mx - mn)
          if norm.gtC (0.7 : ℚ) then "#dc2626"
          else if norm.gtC (0.4 : ℚ) then "#f59e0b"
          else "#16a34a"
      | _ => "#6b7280"

/-- getMarkerSize from MapVisualization.tsx: radius 5 when the range is
absent or the value is not finite, otherwise
Math.max(5, Math.min(20, 5 + norm * 15)) on the normalized value. -/
def getMarkerSize (ranges : String → Option (ℚ × ℚ)) (item : Entry)
    (metric : String) : JsNum :=
  match ranges metric with
  | none => .fin 5
  | some (mn, mx) =>
      match (item.fields metric).toNumberJs with
      | .fin v =>
          let norm := JsNum.divQ (v - mn) (mx - mn)
          JsNum.maxC 5 (JsNum.minC 20 (JsNum.add (.fin 5) (norm.mulPos 15)))
      | _ => .fin 5

theorem foldl_min_le_init : ∀ (l : List ℚ) (a : ℚ), l.foldl min a ≤ a := by
  intro l
  induction l with
  | nil => intro a; exact le_refl a
  | cons b t ih =>
      intro a
      exact le_trans (ih (min a b)) (min_le_left a b)

theorem foldl_min_le_mem :
    ∀ (l : List ℚ) (a x : ℚ), x ∈ l → l.foldl min a ≤ x := by
  intro l
  induction l with
  | nil => intro a x hx; cases hx
  | cons b t ih =>
      intro a x hx
      rcases List.mem_cons.mp hx with rfl | hx
      · exact le_trans (foldl_min_le_init t (min a x)) (min_le_right a x)
      · exact ih (min a b) x hx

theorem le_foldl_max_init : ∀ (l : List ℚ) (a : ℚ), a ≤ l.foldl max a := by
  intro l
  induction l with
  | nil => intro a; exact le_refl a
  | cons b t ih =>
      intro a
      exact le_trans (le_max_left a b) (ih (max a b))

theorem le_foldl_max_mem :
    ∀ (l : List ℚ) (a x : ℚ), x ∈ l → x ≤ l.foldl max a := by
  intro l
  induction l with
  | nil => intro a x hx; cases hx
  | cons b t ih =>
      intro a x hx
      rcases List.mem_cons.mp hx with rfl | hx
      · exact le_trans (le_max_right a x) (le_foldl_max_init t (max a x))
      · exact ih (max a b) x hx

theorem metricRanges_bounds (ms : List String) (aggs : List Entry)
    (metric : String) (mn mx : ℚ) (e : Entry) (v : ℚ)
    (hr : metricRanges ms aggs metric = some (mn, mx)) (he : e ∈ aggs)
    (hv : e.fields metric = .jsn (.fin v)) : mn ≤ v ∧ v ≤ mx := by
  unfold metricRanges at hr
  by_cases hc : ms.contains metric
  · rw [if_pos hc] at hr
    have hmem : v ∈ aggs.filterMap (fun e =>
        match e.fields metric with
        | Value.jsn (JsNum.fin q) => some q
        | _ => none) := by
      rw [List.mem_filterMap]
      exact ⟨e, he, by rw [hv]⟩
    cases hl : aggs.filterMap (fun e =>
        match e.fields metric with
        | Value.jsn (JsNum.fin q) => some q
        | _ => none) with
    | nil => rw [hl] at hmem; cases hmem
    | cons v₀ vs =>
        rw [hl] at hr hmem
        have hpair := Option.some.inj hr
        have hmn : mn = vs.foldl min v₀ := (congrArg Prod.fst hpair).symm
        have hmx : mx = vs.foldl max v₀ := (congrArg Prod.snd hpair).symm
        constructor
        · rw [hmn]
          rcases List.mem_cons.mp hmem with rfl | hvm
          · exact foldl_min_le_init vs v
          · exact foldl_min_le_mem vs v₀ v hvm
        · rw [hmx]
          rcases List.mem_cons.mp hmem with rfl | hvm
          · exact le_foldl_max_init vs v
          · exact le_foldl_max_mem vs v₀ v hvm
  · rw [if_neg hc] at hr
    cases hr

/-- Aggregate entry with value 0 for metric m. -/
def c4EntryA : Entry :=
  ⟨"A", fun mt => if mt = "m" then .jsn (.fin 0) else .undef, 1⟩

/-- Aggregate entry with value 10 for metric m. -/
def c4EntryB : Entry :=
  ⟨"B", fun mt => if mt = "m" then .jsn (.fin 10) else .undef, 1⟩

/-- Aggregate entry with value 7 for metric m: its normalized value under
the range 0..10 is exactly 0.7. -/
def c4EntryC : Entry :=
  ⟨"C", fun mt => if mt = "m" then .jsn (.fin 7) else .undef, 1⟩

/-- The three-entry aggregate set of the claim C4 scenario. -/
def c4Aggs : List Entry := [c4EntryA, c4EntryB, c4EntryC]

/-- Counterexample to claim C4: with range 0..10 the entry of value 7 has
normalized value exactly 0.7, and getMarkerColor assigns the medium orange
bucket, not the high red one — the 0.7 cutoff is exclusive, not inclusive. -/
theorem claimC4_counterexample :
    metricRanges ["m"] c4Aggs "m" = some (0, 10) ∧
    ((7 : ℚ) - 0) / (10 - 0) = (0.7 : ℚ) ∧
    getMarkerColor (metricRanges ["m"] c4Aggs) c4EntryC "m" = "#f59e0b" ∧
    getMarkerColor (metricRanges ["m"] c4Aggs) c4EntryC "m" ≠ "#dc2626" := by
  have hr : metricRanges ["m"] c4Aggs "m" = some (0, 10) := by
    simp [metricRanges, c4Aggs, c4EntryA, c4EntryB, c4EntryC]
    norm_num
  refine ⟨hr, by norm_num, ?_, ?_⟩
  · rw [getMarkerColor, hr]
    have hv : (c4EntryC.fields "m").toNumberJs = .fin 7 := rfl
    rw [hv]
    have hd : JsNum.divQ ((7 : ℚ) - 0) (10 - 0) = .fin (0.7 : ℚ) := by
      rw [JsNum.divQ]
      norm_num
    simp only [hd]
    have h1 : (JsNum.fin (0.7 : ℚ)).gtC (0.7 : ℚ) = false := by
      simp [JsNum.gtC]
    have h2 : (JsNum.fin (0.7 : ℚ)).gtC (0.4 : ℚ) = true := by
      simp [JsNum.gtC]
      norm_num
    rw [h1, h2]
    simp
  · rw [getMarkerColor, hr]
    have hv : (c4EntryC.fields "m").toNumberJs = .fin 7 := rfl
    rw [hv]
    have hd : JsNum.divQ ((7 : ℚ) - 0) (10 - 0) = .fin (0.7 : ℚ) := by
      rw [JsNum.divQ]
      norm_num
    simp only [hd]
    have h1 : (JsNum.fin (0.7 : ℚ)).gtC (0.7 : ℚ) = false := by
      simp [JsNum.gtC]
    have h2 : (JsNum.fin (0.7 : ℚ)).gtC (0.4 : ℚ) = true := by
      simp [JsNum.gtC]
      norm_num
    rw [h1, h2]
    simp

/-- Claim C4 as amended: for every aggregate entry whose normalized metric
value (v - min) / (max - min) is exactly 0.7 under a non-degenerate computed
range, getMarkerColor assigns the medium orange bucket — the strict
comparison norm > 0.7 makes the high bucket exclusive at its boundary. -/
theorem claimC4_amended (ms : List String) (aggs : List Entry)
    (metric : String) (mn mx v : ℚ) (e : Entry)
    (hr : metricRanges ms aggs metric = some (mn, mx)) (hnd : mn ≠ mx)
    (hv : e.fields metric = .jsn (.fin v))
    (hnorm : (v - mn) / (mx - mn) = (0.7 : ℚ)) :
    getMarkerColor (metricRanges ms aggs) e metric = "#f59e0b" := by
  rw [getMarkerColor, hr]
  have hvt : (e.fields metric).toNumberJs = .fin v := by
    rw [hv]
    rfl
  rw [hvt]
  have hden : mx - mn ≠ 0 := sub_ne_zero.mpr (Ne.symm hnd)
  have hd : JsNum.divQ (v - mn) (mx - mn) = .fin (0.7 : ℚ) := by
    rw [JsNum.divQ, if_neg hden, hnorm]
  simp only [hd]
  have h1 : (JsNum.fin (0.7 : ℚ)).gtC (0.7 : ℚ) = false := by
    simp [JsNum.gtC]
  have h2 : (JsNum.fin (0.7 : ℚ)).gtC (0.4 : ℚ) = true := by
    simp [JsNum.gtC]
    norm_num
  rw [h1, h2]
  simp

/-- Witness for claim C4 as amended, at the concrete 0..10 range with
value 7. -/
theorem claimC4_amended_witness :
    getMarkerColor (metricRanges ["m"] c4Aggs) c4EntryC "m" = "#f59e0b" :=
  claimC4_amended ["m"] c4Aggs "m" 0 10 7 c4EntryC
    (by
      simp [metricRanges, c4Aggs, c4EntryA, c4EntryB, c4EntryC]
      norm_num)
    (by norm_num) rfl (by norm_num)

/-- Claim C5 as amended: a non-finite aggregate value still gets the neutral
gray bucket and minimum radius 5 (that half of the claim holds); but a
degenerate computed range (min = max) with a finite value yields the low
green bucket and a NaN radius — 0/0 normalizes to NaN, NaN fails both bucket
comparisons, and Math.max(5, Math.min(20, NaN)) is NaN. -/
theorem claimC5_amended :
    (∀ (ms : List String) (aggs : List Entry) (metric : String) (e : Entry)
        (n : JsNum), e.fields metric = .jsn n → n.isFin = false →
        getMarkerColor (metricRanges ms aggs) e metric = "#6b7280" ∧
        getMarkerSize (metricRanges ms aggs) e metric = .fin 5) ∧
    (∀ (ms : List String) (aggs : List Entry) (metric : String) (mn : ℚ)
        (e : Entry) (v : ℚ),
        metricRanges ms aggs metric = some (mn, mn) → e ∈ aggs →
        e.fields metric = .jsn (.fin v) →
        getMarkerColor (metricRanges ms aggs) e metric = "#16a34a" ∧
        getMarkerSize (metricRanges ms aggs) e metric = .nan) := by
  constructor
  · intro ms aggs metric e n hv hnf
    have hvt : (e.fields metric).toNumberJs = n := by
      rw [hv]
      rfl
    constructor
    · rw [getMarkerColor]
      cases hr : metricRanges ms aggs metric with
      | none => rfl
      | some p =>
          rcases p with ⟨mn, mx⟩
          rw [hvt]
          cases n with
          | fin q => simp [JsNum.isFin] at hnf
          | nan => rfl
          | pinf => rfl
          | ninf => rfl
    · rw [getMarkerSize]
      cases hr : metricRanges ms aggs metric with
      | none => rfl
      | some p =>
          rcases p with ⟨mn, mx⟩
          rw [hvt]
          cases n with
          | fin q => simp [JsNum.isFin] at hnf
          | nan => rfl
          | pinf => rfl
          | ninf => rfl
  · intro ms aggs metric mn e v hr he hv
    have hb := metricRanges_bounds ms aggs metric mn mn e v hr he hv
    have hvmn : v = mn := le_antisymm hb.2 hb.1
    have hvt : (e.fields metric).toNumberJs = .fin v := by
      rw [hv]
      rfl
    have hd : JsNum.divQ (v - mn) (mn - mn) = .nan := by
      rw [JsNum.divQ]
      simp [hvmn]
    constructor
    · rw [getMarkerColor, hr, hvt]
      simp only [hd]
      rfl
    · rw [getMarkerSize, hr, hvt]
      simp only [hd]
      rfl

/-- The single aggregate entry of the claim C5 degenerate-range scenario:
one finite value 5, so the computed range is 5..5. -/
def c5Entry : Entry :=
  ⟨"A", fun mt => if mt = "m" then .jsn (.fin 5) else .undef, 1⟩

/-- An aggregate entry whose metric value is NaN. -/
def c5EntryN : Entry :=
  ⟨"B", fun mt => if mt = "m" then .jsn .nan else .undef, 1⟩

/-- Counterexample to claim C5 as stated: under the degenerate range 5..5
the finite-valued entry receives the low green bucket (not the neutral gray
one) and a NaN radius (not the minimum radius 5). -/
theorem claimC5_counterexample :
    metricRanges ["m"] [c5Entry] "m" = some (5, 5) ∧
    getMarkerColor (metricRanges ["m"] [c5Entry]) c5Entry "m" = "#16a34a" ∧
    getMarkerColor (metricRanges ["m"] [c5Entry]) c5Entry "m" ≠ "#6b7280" ∧
    getMarkerSize (metricRanges ["m"] [c5Entry]) c5Entry "m" = .nan ∧
    getMarkerSize (metricRanges ["m"] [c5Entry]) c5Entry "m" ≠ .fin 5 := by
  have hr : metricRanges ["m"] [c5Entry] "m" = some (5, 5) := by
    simp [metricRanges, c5Entry]
  have hvt : (c5Entry.fields "m").toNumberJs = .fin 5 := rfl
  have hd : JsNum.divQ ((5 : ℚ) - 5) (5 - 5) = .nan := by
    rw [JsNum.divQ]
    simp
  have hcol : getMarkerColor (metricRanges ["m"] [c5Entry]) c5Entry "m" =
      "#16a34a" := by
    rw [getMarkerColor, hr, hvt]
    simp only [hd]
    rfl
  have hsz : getMarkerSize (metricRanges ["m"] [c5Entry]) c5Entry "m" =
      .nan := by
    rw [getMarkerSize, hr, hvt]
    simp only [hd]
    rfl
  refine ⟨hr, hcol, ?_, hsz, ?_⟩
  · rw [hcol]
    simp
  · rw [hsz]
    simp

/-- Witness for claim C5 as amended: the NaN-valued entry maps to gray with
radius 5, and the degenerate-range finite entry maps to green with NaN
radius. -/
theorem claimC5_amended_witness :
    (getMarkerColor (metricRanges ["m"] [c5EntryN]) c5EntryN "m" =
        "#6b7280" ∧
      getMarkerSize (metricRanges ["m"] [c5EntryN]) c5EntryN "m" = .fin 5) ∧
    (getMarkerColor (metricRanges ["m"] [c5Entry]) c5Entry "m" =
        "#16a34a" ∧
      getMarkerSize (metricRanges ["m"] [c5Entry]) c5Entry "m" = .nan) :=
  ⟨claimC5_amended.1 ["m"] [c5EntryN] "m" c5EntryN .nan rfl rfl,
   claimC5_amended.2 ["m"] [c5Entry] "m" 5 c5Entry 5
     (by simp [metricRanges, c5Entry]) (by simp) rfl⟩

-- ---------------------------------------------------------------------------
-- Runtime CSV parser of components/DataUpload.tsx and the coordinate
-- construction of the sanitized Index-page parser
-- ---------------------------------------------------------------------------

/-- One cell after the trim and global quote removal the parser applies. -/
def cleanCell (l : List Char) : String :=
  String.mk ((trimChars l).filter (fun c => c ≠ '"'))

/-- The value stored on the row object for one cell: the parsed number when
Number(value) is not NaN and the cell is not the empty string, otherwise the
string itself. -/
def rowVal (v : String) : Value :=
  if v ≠ "" ∧ strToNumJs v ≠ JsNum.nan then .jsn (strToNumJs v) else .str v

/-- Property lookup on the row object built by assigning cells in header
order: the last assignment to a repeated header wins. -/
def rowGet (pairs : List (String × Value)) (k : String) : Option Value :=
  pairs.foldl (fun acc p => if p.1 = k then some p.2 else acc) none

/-- The JavaScript chain of || defaults: the first truthy value wins,
otherwise the final default. -/
def jsOrV : List (Option Value) → Value → Value
  | [], d => d
  | o :: rest, d =>
      match o with
      | some v => if v.truthy then v else jsOrV rest d
      | none => jsOrV rest d

/-- Truthiness of a possibly-absent property (undefined is falsy). -/
def truthyO : Option Value → Bool
  | some v => v.truthy
  | none => false

/-- Number() coercion of a possibly-absent property (undefined is NaN). -/
def toNumO : Option Value → JsNum
  | some v => v.toNumberJs
  | none => .nan

/-- The effect of the trailing record spread on a canonical field: a row
column of exactly that name overwrites the computed value. -/
def overrideF (pairs : List (String × Value)) (k : String)
    (computed : Value) : Value :=
  match rowGet pairs k with
  | some v => v
  | none => computed

/-- A record produced by the DataUpload parser: the canonical fields, which
by the trailing spread hold the row column of the same name when present,
and the coordinates pair.  (A column literally named coordinates would also
be spread over the pair; no input of interest has one, so it is not
modelled.) -/
structure UploadRec where
  region : Value
  year : Value
  sector : Value
  emissions : Value
  coordinates : Option (JsNum × JsNum)

/-- The standardRow construction of the DataUpload parser for one row: alias
resolution with || chains, the unchecked coordinate construction
`row.lat && row.lng ? [Number(row.lat), Number(row.lng)] : undefined`
(no bounding-box validation on this path), and the trailing spread. -/
def mkUploadRec (pairs : List (String × Value)) : UploadRec :=
  let regionC := jsOrV [rowGet pairs "region", rowGet pairs "Region",
    rowGet pairs "autonomous_community",
    rowGet pairs "comunidad_autonoma"] (.str "")
  let yearC := jsOrV [rowGet pairs "year", rowGet pairs "Year",
    rowGet pairs "año"] (.jsn (.fin 0))
  let sectorC := jsOrV [rowGet pairs "sector", rowGet pairs "Sector",
    rowGet pairs "industry", rowGet pairs "industria"] (.str "")
  let emisC := jsOrV [rowGet pairs "emissions", rowGet pairs "Emissions",
    rowGet pairs "emisiones", rowGet pairs "co2", rowGet pairs "CO2"]
    (.jsn (.fin 0))
  let coords :=
    if truthyO (rowGet pairs "lat") && truthyO (rowGet pairs "lng") then
      some (toNumO (rowGet pairs "lat"), toNumO (rowGet pairs "lng"))
    else none
  ⟨overrideF pairs "region" regionC,
   overrideF pairs "year" yearC,
   overrideF pairs "sector" sectorC,
   overrideF pairs "emissions" emisC,
   coords⟩

/-- One data row of the DataUpload parser: skipped when the cell count does
not match the header count, and kept only when region, year and emissions
are all truthy. -/
def parseUploadRow (headers : List String) (line : List Char) :
    Option UploadRec :=
  let values := (splitCh ',' line).map cleanCell
  if values.length ≠ headers.length then none
  else
    let rec0 := mkUploadRec ((headers.zip values).map
      (fun p => (p.1, rowVal p.2)))
    if rec0.region.truthy && rec0.year.truthy && rec0.emissions.truthy then
      some rec0
    else none

/-- parseCSV of components/DataUpload.tsx: trim the text, split into lines,
require a header line plus at least one data row (otherwise the parser
throws, modelled as none), and fold every data row through the row parser,
dropping skipped and invalid rows. -/
def parseCSVUpload (csvText : String) : Option (List UploadRec) :=
  match splitCh '\n' (trimChars csvText.data) with
  | [] => none
  | [_] => none
  | headerLine :: rest =>
      some (rest.filterMap
        (parseUploadRow ((splitCh ',' headerLine).map cleanCell)))

/-- The coordinate construction of the sanitized Index-page parser
(src/unnamed/part_000, second version): each of lat and lng is taken only if
the row value is truthy, is then sanitized, and the pair is kept only when
validateCoordinates accepts it. -/
def indexRowCoordinates (rlat rlng : Option Value) : Option (ℚ × ℚ) :=
  let lat := if truthyO rlat then some (sanitizeNumber (toNumO rlat))
    else none
  let lng := if truthyO rlng then some (sanitizeNumber (toNumO rlng))
    else none
  match lat, lng with
  | some la, some ln =>
      if validateCoordinates la ln then some (la, ln) else none
  | _, _ => none

/-- Counterexample to claim C6: the DataUpload runtime parser builds the
coordinate pair without any bounding-box check, so the row with lat=90,
lng=1 (both parse as numbers, latitude far outside the Spain box) yields a
record whose coordinates are present and out of bounds. -/
theorem claimC6_counterexample :
    (parseCSVUpload
        "region,year,sector,emissions,lat,lng\nMadrid,2022,power,10,90,1").map
      (fun l => l.map (fun r => r.coordinates)) =
      some [some (.fin 90, .fin 1)] ∧
    validateCoordinates 90 1 = false := by
  constructor
  · simp [parseCSVUpload, parseUploadRow, mkUploadRec, cleanCell, rowVal,
      rowGet, jsOrV, truthyO, toNumO, overrideF, splitCh, trimChars,
      isWsChar, strToNumJs, digitsVal, Value.truthy, Value.toNumberJs,
      List.dropWhile_cons, List.dropWhile_nil]
  · rw [validateCoordinates]
    norm_num

/-- Claim C6 as amended: on the sanitized Index-page parser every coordinate
pair the Normalizer emits satisfies the Spain bounding-box check —
equivalently, a row whose lat/lng fail the check gets absent coordinates;
the DataUpload parser, by contrast, performs no such check (see the
counterexample). -/
theorem claimC6_amended (rlat rlng : Option Value) (p : ℚ × ℚ)
    (h : indexRowCoordinates rlat rlng = some p) :
    validateCoordinates p.1 p.2 = true := by
  simp only [indexRowCoordinates] at h
  by_cases h1 : truthyO rlat = true
  · by_cases h2 : truthyO rlng = true
    · rw [if_pos h1, if_pos h2] at h
      have hm : (if validateCoordinates (sanitizeNumber (toNumO rlat))
          (sanitizeNumber (toNumO rlng)) = true then
            some (sanitizeNumber (toNumO rlat), sanitizeNumber (toNumO rlng))
          else none) = some p := h
      by_cases hv : validateCoordinates (sanitizeNumber (toNumO rlat))
          (sanitizeNumber (toNumO rlng)) = true
      · rw [if_pos hv] at hm
        have hp := Option.some.inj hm
        rw [← hp]
        simpa using hv
      · rw [if_neg hv] at hm
        exact Option.noConfusion hm
    · rw [if_pos h1, if_neg h2] at h
      simp at h
  · rw [if_neg h1] at h
    by_cases h2 : truthyO rlng = true
    · rw [if_pos h2] at h
      simp at h
    · rw [if_neg h2] at h
      simp at h

/-- Witness for claim C6 as amended: in-box coordinates 40, 1 are emitted
and do satisfy the check. -/
theorem claimC6_amended_witness : validateCoordinates 40 1 = true :=
  claimC6_amended (some (.jsn (.fin 40))) (some (.jsn (.fin 1))) (40, 1)
    (by
      rw [indexRowCoordinates]
      norm_num [truthyO, Value.truthy, toNumO, Value.toNumberJs,
        sanitizeNumber, validateCoordinates])

-- ---------------------------------------------------------------------------
-- Ingestion boundary of handleFileUpload / loadDefaultData
-- ---------------------------------------------------------------------------

/-- The only pre-parse check handleFileUpload performs on the chosen file:
the lowercased file name must end in .csv.  No size, row-count or
column-count validation is invoked anywhere on this path, although
security.ts defines the limits and validateFileSize. -/
def uploadPreParseGate (name : String) : Bool :=
  ".csv".data.isSuffixOf (name.data.map Char.toLower)

/-- The outcome the user-visible layer receives from a load: a success toast
with a record count, or an error toast. -/
inductive Outcome where
  | ok (n : ℕ)
  | err
deriving DecidableEq, Repr

/-- loadDefaultData of DataUpload.tsx as a function of the fetched text:
a parser throw is caught as an error, any parsed list — zero records
included — is delivered with a success toast. -/
def loadDefaultOutcome (text : String) : Outcome :=
  match parseCSVUpload text with
  | none => .err
  | some recs => .ok recs.length

/-- handleFileUpload of DataUpload.tsx as a function of the file name and
its text: reject non-csv names, catch parser throws, and throw (caught as
an error toast) when the parse produced zero records. -/
def handleUploadOutcome (name : String) (text : String) : Outcome :=
  if uploadPreParseGate name = false then .err
  else
    match parseCSVUpload text with
    | none => .err
    | some recs => if recs.length = 0 then .err else .ok recs.length

/-- A syntactically valid 21-column CSV (one over MAX_CSV_COLUMNS) with one
data row. -/
def c8Csv : String :=
  "c1,c2,c3,c4,c5,c6,c7,c8,c9,c10,c11,c12,c13,c14,c15,c16,c17,region,year,sector,emissions\n1,2,3,4,5,6,7,8,9,10,11,12,13,14,15,16,17,Madrid,2022,power,10"

/-- Claim C8, evaluated at failing inputs: the upload boundary accepts any
file named with a .csv suffix regardless of size — an 11 MB size fails the
defined validateFileSize limit yet the gate never consults it — and a
21-column input (over MAX_CSV_COLUMNS) is parsed in full to one record
rather than rejected before parsing.  The size/row/column limits of
security.ts are declared but never enforced. -/
theorem claimC8_limits_not_enforced :
    uploadPreParseGate "big.csv" = true ∧
    validateFileSize 11534336 = false ∧
    MAX_FILE_SIZE < 11534336 ∧
    (parseCSVUpload c8Csv).map List.length = some 1 ∧
    MAX_CSV_COLUMNS < 21 := by
  refine ⟨by decide, by decide, by decide, ?_, by decide⟩
  simp [c8Csv, parseCSVUpload, parseUploadRow, mkUploadRec, cleanCell,
    rowVal, rowGet, jsOrV, truthyO, toNumO, overrideF, splitCh, trimChars,
    isWsChar, strToNumJs, digitsVal, Value.truthy, Value.toNumberJs,
    List.dropWhile_cons, List.dropWhile_nil]

/-- The zero-valid-record CSV of the claim C9 scenario: the parse succeeds
(header plus one row) but the row has an empty region and is dropped. -/
def c9Csv : String := "region,year,sector,emissions\n,2022,power,10"

/-- Counterexample to claim C9: on the default-data path a successful parse
with zero valid records is reported as a success (the success toast with 0
records), not as a distinct no-data error. -/
theorem claimC9_counterexample :
    parseCSVUpload c9Csv = some [] ∧
    loadDefaultOutcome c9Csv = Outcome.ok 0 ∧
    Outcome.ok 0 ≠ Outcome.err := by
  have hp : parseCSVUpload c9Csv = some [] := by
    simp [c9Csv, parseCSVUpload, parseUploadRow, mkUploadRec, cleanCell,
      rowVal, rowGet, jsOrV, truthyO, toNumO, overrideF, splitCh, trimChars,
      isWsChar, strToNumJs, digitsVal, Value.truthy, Value.toNumberJs,
      List.dropWhile_cons, List.dropWhile_nil]
  refine ⟨hp, ?_, by decide⟩
  rw [loadDefaultOutcome, hp]
  rfl

/-- Claim C9 as amended: the upload path does surface a zero-record parse
as an error (never as a success), while the default-data path reports any
successful parse as a success with its record count, zero included. -/
theorem claimC9_amended :
    (∀ (name text : String) (recs : List UploadRec),
        parseCSVUpload text = some recs → recs.length = 0 →
        handleUploadOutcome name text = Outcome.err) ∧
    (∀ (text : String) (recs : List UploadRec),
        parseCSVUpload text = some recs →
        loadDefaultOutcome text = Outcome.ok recs.length) := by
  constructor
  · intro name text recs hp hlen
    rw [handleUploadOutcome]
    by_cases hg : uploadPreParseGate name = false
    · rw [if_pos hg]
    · rw [if_neg hg, hp]
      simp only [hlen]
      rfl
  · intro text recs hp
    rw [loadDefaultOutcome, hp]

/-- Witness for claim C9 as amended: on the zero-record CSV the upload path
errors and the default path succeeds with 0 records. -/
theorem claimC9_amended_witness :
    handleUploadOutcome "a.csv" c9Csv = Outcome.err ∧
    loadDefaultOutcome c9Csv = Outcome.ok 0 := by
  have hp : parseCSVUpload c9Csv = some [] := by
    simp [c9Csv, parseCSVUpload, parseUploadRow, mkUploadRec, cleanCell,
      rowVal, rowGet, jsOrV, truthyO, toNumO, overrideF, splitCh, trimChars,
      isWsChar, strToNumJs, digitsVal, Value.truthy, Value.toNumberJs,
      List.dropWhile_cons, List.dropWhile_nil]
  exact ⟨claimC9_amended.1 "a.csv" c9Csv [] hp rfl,
    claimC9_amended.2 c9Csv [] hp⟩
